import Mathlib

/-!
Verification development for the Assignment-Scheduler backend core
(src/backend/src/routes/users.js: the users router, the auth router and the
slots router concatenated in that file, together with the schema in
src/database/).

The persistent store is modelled as the spec's §6 describes it: a relational
store accessed through atomic query calls.  Tables are lists of records;
a supabase select with .single() is a find?, an update is a map guarded by
the update's filter, an insert is an append, a delete is a filter.  Opaque
ids are Nat, emails and role strings are String, dates and times-of-day are
Nat (minutes since the epoch for raw datetimes; a stored date is a day index,
a stored time-of-day is minutes after midnight, the server clock being UTC).
The implicit capabilities (Math.random, the external Google Calendar call)
are injected parameters, as §9 of the spec directs for tests.
-/

namespace Scheduler

/-- Roles as constrained by the users.role and user_roles.role CHECK
constraints and the routers' role string literals. -/
inductive Role
  | scholar
  | faculty
  | admin
deriving DecidableEq, Repr

/-- Slot statuses as constrained by the slots.status CHECK constraint. -/
inductive Status
  | available
  | booked
  | cancelled
  | completed
deriving DecidableEq, Repr

/-- Parsing of the role string received in a request body, mirroring the
check ['scholar', 'faculty', 'admin'].includes(role) in the users router. -/
def roleOfString : String → Option Role
  | "scholar" => some Role.scholar
  | "faculty" => some Role.faculty
  | "admin" => some Role.admin
  | _ => none

/-- Rendering of a role back to its request-body string. -/
def stringOfRole : Role → String
  | Role.scholar => "scholar"
  | Role.faculty => "faculty"
  | Role.admin => "admin"

/-- A row of the users table (the fields the routers read and write;
timestamps are dropped). -/
structure User where
  id : Nat
  email : String
  name : String
  picture : String
  google_id : String
  role : Role
deriving DecidableEq, Repr

/-- A row of the user_roles table (the fields the routers read and write). -/
structure RoleRow where
  email : String
  role : Role
deriving DecidableEq, Repr

/-- The two role stores: the users table and the user_roles table. -/
structure RoleDB where
  users : List User
  user_roles : List RoleRow
deriving DecidableEq, Repr

/-- A row of the slots table (the fields the routers read and write;
timestamps are dropped). -/
structure Slot where
  id : Nat
  faculty_id : Nat
  scholar_id : Option Nat
  date : Nat
  start_time : Nat
  end_time : Nat
  status : Status
  notes : Option String
  meeting_link : Option String
deriving DecidableEq, Repr

/-- Upsert into user_roles keyed on email (supabase .upsert with
onConflict: 'email'): the existing row for that email is overwritten,
or a new row is appended. -/
def upsertRole (email : String) (r : Role) (rows : List RoleRow) : List RoleRow :=
  if rows.any (fun x => decide (x.email = email)) then
    rows.map (fun x => if x.email = email then { x with role := r } else x)
  else
    rows ++ [{ email := email, role := r }]

/-- Outcomes of the two admin role-mutation endpoints. -/
inductive RoleMutResult
  | forbidden
  | missingField
  | invalidRole
  | userNotFound
  | ok
deriving DecidableEq, Repr

/-- PATCH /users/:userId/role (users router lines 28-78), the requireRole
admin gate included.  The gate itself is not under src/ (only
src/backend/src/middleware/auth.js callers are), so its Forbidden-on-wrong-
role behaviour follows §4.2 of the spec.  Handler order as in the source:
invalid role value, then the self-change guard (userId equal to the caller's
id), then the target lookup, then the user_roles upsert followed by the
users-table role sync keyed on the target id. -/
def patchUserRole (caller : User) (userId : Nat) (roleStr : String) (db : RoleDB) :
    RoleMutResult × RoleDB :=
  if caller.role ≠ Role.admin then (RoleMutResult.forbidden, db)
  else
    match roleOfString roleStr with
    | none => (RoleMutResult.invalidRole, db)
    | some r =>
      if userId = caller.id then (RoleMutResult.forbidden, db)
      else
        match db.users.find? (fun u => decide (u.id = userId)) with
        | none => (RoleMutResult.userNotFound, db)
        | some target =>
          let roles := upsertRole target.email r db.user_roles
          let users := db.users.map (fun u => if u.id = userId then { u with role := r } else u)
          (RoleMutResult.ok, { users := users, user_roles := roles })

/-- POST /users/roles/email (users router lines 81-134), the requireRole
admin gate included (modelled from §4.2 of the spec, see patchUserRole).
Handler order as in the source: missing email or role (the falsy check on
the body fields, empty string in this model), invalid role value, the
self-change guard (email equal to the caller's email), then the user_roles
upsert followed by the users-table role sync keyed on email when a users row
for that email exists. -/
def setRoleByEmail (caller : User) (email roleStr : String) (db : RoleDB) :
    RoleMutResult × RoleDB :=
  if caller.role ≠ Role.admin then (RoleMutResult.forbidden, db)
  else if email = "" ∨ roleStr = "" then (RoleMutResult.missingField, db)
  else
    match roleOfString roleStr with
    | none => (RoleMutResult.invalidRole, db)
    | some r =>
      if email = caller.email then (RoleMutResult.forbidden, db)
      else
        let roles := upsertRole email r db.user_roles
        let users :=
          if db.users.any (fun u => decide (u.email = email)) then
            db.users.map (fun u => if u.email = email then { u with role := r } else u)
          else db.users
        (RoleMutResult.ok, { users := users, user_roles := roles })

/-- The profile fields the verified Google id token yields in POST /auth/google. -/
structure AuthPayload where
  email : String
  name : String
  picture : String
  googleId : String

/-- POST /auth/google (auth router lines 181-292), after the external token
verification: read user_roles for the email (default scholar and insert a
default-scholar row when absent), then find the users row for the email and
either insert a new user carrying the resolved role (its generated id is the
injected freshId) or refresh the existing row, syncing the role.  Returns
the users row the response serialises. -/
def googleAuth (p : AuthPayload) (freshId : Nat) (db : RoleDB) : User × RoleDB :=
  let roleData := db.user_roles.find? (fun x => decide (x.email = p.email))
  let userRole : Role :=
    match roleData with
    | some x => x.role
    | none => Role.scholar
  let roles1 : List RoleRow :=
    match roleData with
    | some _ => db.user_roles
    | none => db.user_roles ++ [{ email := p.email, role := Role.scholar }]
  match db.users.find? (fun u => decide (u.email = p.email)) with
  | none =>
    let newUser : User :=
      { id := freshId, email := p.email, name := p.name, picture := p.picture,
        google_id := p.googleId, role := userRole }
    (newUser, { users := db.users ++ [newUser], user_roles := roles1 })
  | some u =>
    let updated : User :=
      { u with name := p.name, picture := p.picture, google_id := p.googleId,
               role := userRole }
    (updated, { users := db.users.map (fun x => if x.id = u.id then updated else x),
                user_roles := roles1 })

/-- The slots router's overlap filter for one existing row (the .or of three
.and conditions in POST /slots): start_time.lte.S and end_time.gt.S, or
start_time.lt.E and end_time.gte.E, or start_time.gte.S and end_time.lte.E,
where S and E are the new slot's start and end times-of-day. -/
def overlapCheck (s : Slot) (S E : Nat) : Bool :=
  (decide (s.start_time ≤ S) && decide (s.end_time > S)) ||
  (decide (s.start_time < E) && decide (s.end_time ≥ E)) ||
  (decide (s.start_time ≥ S) && decide (s.end_time ≤ E))

/-- Outcomes of slot creation. -/
inductive CreateResult
  | invalidRange
  | slotConflict
  | created (slot : Slot)
deriving DecidableEq, Repr

/-- The row POST /slots inserts on success: the request's times-of-day and
day, status available, no occupant, no notes, no meeting link.  The
generated row id is the injected freshId. -/
def newSlotRow (facultyId dateRaw startDT endDT freshId : Nat) : Slot :=
  { id := freshId, faculty_id := facultyId, scholar_id := none,
    date := dateRaw / 1440, start_time := startDT % 1440, end_time := endDT % 1440,
    status := Status.available, notes := none, meeting_link := none }

/-- POST /slots (slots router lines 337-404), after the express-validator
ISO8601 coercion: the time-of-day extraction from both datetimes and the
day extraction from the date field, the range check on the full datetimes,
the overlap query over same-faculty same-date rows, then the insert with
status available. -/
def createSlot (facultyId dateRaw startDT endDT freshId : Nat) (st : List Slot) :
    CreateResult × List Slot :=
  if endDT ≤ startDT then (CreateResult.invalidRange, st)
  else if 0 < (st.filter
      (fun s => decide (s.faculty_id = facultyId) && decide (s.date = dateRaw / 1440) &&
        overlapCheck s (startDT % 1440) (endDT % 1440))).length then
    (CreateResult.slotConflict, st)
  else
    (CreateResult.created (newSlotRow facultyId dateRaw startDT endDT freshId),
     st ++ [newSlotRow facultyId dateRaw startDT endDT freshId])

/-- One slot-creation request (the body fields plus the injected generated id). -/
structure CreateReq where
  facultyId : Nat
  dateRaw : Nat
  startDT : Nat
  endDT : Nat
  freshId : Nat

/-- Sequential execution of a list of slot-creation requests, collecting the
rows the accepted requests inserted, in order. -/
def runCreatesAccepted (reqs : List CreateReq) (st : List Slot) : List Slot :=
  match reqs with
  | [] => []
  | r :: rs =>
    let p := createSlot r.facultyId r.dateRaw r.startDT r.endDT r.freshId st
    match p.1 with
    | CreateResult.created A => A :: runCreatesAccepted rs p.2
    | _ => runCreatesAccepted rs p.2

/-- Disjointness of the half-open time intervals of two slots, reading
a stored pair start_time, end_time as the set of minutes t with
start_time ≤ t < end_time. -/
def intervalsDisjoint (A B : Slot) : Prop :=
  ¬ ∃ t : Nat, (A.start_time ≤ t ∧ t < A.end_time) ∧ (B.start_time ≤ t ∧ t < B.end_time)

/-- The alphabet string of generateFallbackMeetLink. -/
def lowercaseChars : List Char :=
  ['a', 'b', 'c', 'd', 'e', 'f', 'g', 'h', 'i', 'j', 'k', 'l', 'm',
   'n', 'o', 'p', 'q', 'r', 's', 't', 'u', 'v', 'w', 'x', 'y', 'z']

/-- One segment of the fallback link: len characters drawn from the alphabet
at indices Math.floor(Math.random() * 26), the injected random source rand
being consumed at positions base, base+1, ... -/
def fallbackSegment (rand : Nat → Nat) (base len : Nat) : List Char :=
  (List.range len).map (fun j => lowercaseChars.getD (rand (base + j) % 26) 'a')

/-- generateFallbackMeetLink (slots router lines 466-478): three segments of
lengths 3, 4 (the middle one) and 3, joined by hyphens after the fixed
https prefix string. -/
def generateFallbackMeetLink (rand : Nat → Nat) : String :=
  let s0 := fallbackSegment rand 0 3
  let s1 := fallbackSegment rand 3 4
  let s2 := fallbackSegment rand 7 3
  "https://meet.google.com/" ++ String.mk s0 ++ "-" ++ String.mk s1 ++ "-" ++ String.mk s2

/-- createRealGoogleMeet (slots router lines 442-463): the external Calendar
call is the injected provision argument (some link on success, none on any
thrown failure); a failure falls back to the locally generated link. -/
def createRealGoogleMeet (provision : Option String) (rand : Nat → Nat) : String :=
  match provision with
  | some link => link
  | none => generateFallbackMeetLink rand

/-- The form the spec prescribes for the fallback link: the fixed prefix
followed by three hyphen-separated lowercase-letter segments of lengths
3, 4 and 3. -/
def isFallbackLinkForm (L : String) : Prop :=
  ∃ s0 s1 s2 : List Char,
    s0.length = 3 ∧ s1.length = 4 ∧ s2.length = 3 ∧
    (∀ c ∈ s0, 'a' ≤ c ∧ c ≤ 'z') ∧
    (∀ c ∈ s1, 'a' ≤ c ∧ c ≤ 'z') ∧
    (∀ c ∈ s2, 'a' ≤ c ∧ c ≤ 'z') ∧
    L = "https://meet.google.com/" ++ String.mk s0 ++ "-" ++ String.mk s1 ++ "-" ++ String.mk s2

/-- The booking handler's first store round-trip: select from slots where
id = slotId and status = 'available', .single(). -/
def bookFetchAvailable (slotId : Nat) (st : List Slot) : Option Slot :=
  st.find? (fun s => decide (s.id = slotId) && decide (s.status = Status.available))

/-- The mutation the booking handler's update applies to a matched row. -/
def bookMutation (scholarId : Nat) (notes : Option String) (link : String) (s : Slot) : Slot :=
  { s with status := Status.booked, scholar_id := some scholarId,
           notes := notes, meeting_link := some link }

/-- The booking handler's durable update: update slots set status, scholar_id,
notes, meeting_link where id = slotId.  The filter names the id alone; it is
not conditioned on the row still being available. -/
def bookApplyUpdate (scholarId slotId : Nat) (notes : Option String) (link : String)
    (st : List Slot) : List Slot :=
  st.map (fun s => if s.id = slotId then bookMutation scholarId notes link s else s)

/-- The booking handler's re-fetch: select from slots where id = slotId, .single(). -/
def bookRefetch (slotId : Nat) (st : List Slot) : Option Slot :=
  st.find? (fun s => decide (s.id = slotId))

/-- Outcomes of booking. -/
inductive BookResult
  | slotUnavailable
  | internalError
  | booked (slot : Slot) (meetingLink : String)
deriving DecidableEq, Repr

/-- POST /slots/:slotId/book (slots router lines 506-570) run sequentially:
fetch the slot filtered on id and status available (404 Slot not available
when absent), resolve the meeting link through createRealGoogleMeet, apply
the update filtered on id alone, then re-fetch the row for the response. -/
def bookSlot (scholarId slotId : Nat) (notes : Option String)
    (provision : Option String) (rand : Nat → Nat) (st : List Slot) :
    BookResult × List Slot :=
  match bookFetchAvailable slotId st with
  | none => (BookResult.slotUnavailable, st)
  | some _ =>
    let link := createRealGoogleMeet provision rand
    let st1 := bookApplyUpdate scholarId slotId notes link st
    match bookRefetch slotId st1 with
    | none => (BookResult.internalError, st1)
    | some b => (BookResult.booked b link, st1)

/-- Where one in-flight booking request stands between its atomic store
operations. -/
inductive ReqPhase
  | start
  | readDone
  | finished (r : BookResult)
deriving DecidableEq, Repr

/-- One in-flight booking request: its inputs and its phase. -/
structure BookReqState where
  scholarId : Nat
  slotId : Nat
  notes : Option String
  provision : Option String
  phase : ReqPhase
deriving DecidableEq, Repr

/-- One atomic step of a booking request against the shared store, following
§5 of the spec: each store round-trip of the handler is one atomic operation,
and nothing in the process serialises two requests between their fetch and
their update.  The fetch step runs bookFetchAvailable; the update step
resolves the link and runs bookApplyUpdate followed by the (store-local)
re-fetch. -/
def bookStep (req : BookReqState) (rand : Nat → Nat) (st : List Slot) :
    BookReqState × List Slot :=
  match req.phase with
  | ReqPhase.start =>
    match bookFetchAvailable req.slotId st with
    | none => ({ req with phase := ReqPhase.finished BookResult.slotUnavailable }, st)
    | some _ => ({ req with phase := ReqPhase.readDone }, st)
  | ReqPhase.readDone =>
    let link := createRealGoogleMeet req.provision rand
    let st1 := bookApplyUpdate req.scholarId req.slotId req.notes link st
    match bookRefetch req.slotId st1 with
    | none => ({ req with phase := ReqPhase.finished BookResult.internalError }, st1)
    | some b => ({ req with phase := ReqPhase.finished (BookResult.booked b link) }, st1)
  | ReqPhase.finished _ => (req, st)

/-- Interleaved execution of two booking requests under a schedule: true
steps the first request, false the second. -/
def runSchedule (sched : List Bool) (r1 r2 : BookReqState)
    (rand1 rand2 : Nat → Nat) (st : List Slot) :
    BookReqState × BookReqState × List Slot :=
  match sched with
  | [] => (r1, r2, st)
  | b :: rest =>
    if b then
      let p := bookStep r1 rand1 st
      runSchedule rest p.1 r2 rand1 rand2 p.2
    else
      let p := bookStep r2 rand2 st
      runSchedule rest r1 p.1 rand1 rand2 p.2

/-- Whether a request finished with a successful booking response. -/
def isBookedPhase : ReqPhase → Bool
  | ReqPhase.finished (BookResult.booked _ _) => true
  | _ => false

/-- Outcomes of slot deletion. -/
inductive DeleteResult
  | notFound
  | forbidden
  | deleted
deriving DecidableEq, Repr

/-- DELETE /slots/:slotId (slots router lines 617-649): fetch the slot
filtered on id and faculty_id = caller (404 when absent), 403 when its
status is booked, else delete the row. -/
def deleteSlot (callerId slotId : Nat) (st : List Slot) : DeleteResult × List Slot :=
  match st.find? (fun s => decide (s.id = slotId) && decide (s.faculty_id = callerId)) with
  | none => (DeleteResult.notFound, st)
  | some slot =>
    if slot.status = Status.booked then (DeleteResult.forbidden, st)
    else (DeleteResult.deleted, st.filter (fun s => !decide (s.id = slotId)))

/-- The row filter of GET /slots/available: status available, date on or
after today, narrowed by the optional faculty_id and date query filters. -/
def availFilter (facultyF dateF : Option Nat) (today : Nat) (s : Slot) : Bool :=
  decide (s.status = Status.available) && decide (today ≤ s.date) &&
  (match facultyF with
   | some f => decide (s.faculty_id = f)
   | none => true) &&
  (match dateF with
   | some d => decide (s.date = d)
   | none => true)

/-- The ordering of GET /slots/available: by date, then by start_time. -/
def slotLe (a b : Slot) : Bool :=
  decide (a.date < b.date) || (decide (a.date = b.date) && decide (a.start_time ≤ b.start_time))

/-- GET /slots/available (slots router lines 407-439): the filtered rows in
the query's order.  The current date (the gte bound) is the injected today. -/
def listAvailable (facultyF dateF : Option Nat) (today : Nat) (st : List Slot) : List Slot :=
  (st.filter (availFilter facultyF dateF today)).mergeSort slotLe

/-- A store holding one available slot, id 1, owned by faculty 2. -/
def raceStore : List Slot :=
  [{ id := 1, faculty_id := 2, scholar_id := none, date := 100, start_time := 540,
     end_time := 600, status := Status.available, notes := none, meeting_link := none }]

/-- A booking request by scholar 10 for slot 1 (its external call succeeds
with linkA). -/
def raceReq1 : BookReqState :=
  { scholarId := 10, slotId := 1, notes := none, provision := some "linkA",
    phase := ReqPhase.start }

/-- A booking request by scholar 20 for slot 1 (its external call succeeds
with linkB). -/
def raceReq2 : BookReqState :=
  { scholarId := 20, slotId := 1, notes := none, provision := some "linkB",
    phase := ReqPhase.start }

/-- The two requests interleaved so that both fetches run before either
update: fetch 1, fetch 2, update 1, update 2. -/
def raceOut : BookReqState × BookReqState × List Slot :=
  runSchedule [true, false, true, false] raceReq1 raceReq2 (fun _ => 0) (fun _ => 0) raceStore

/-- The §3 role-sync invariant: every users row agrees with every user_roles
row for the same email. -/
def roleSync (db : RoleDB) : Prop :=
  ∀ u ∈ db.users, ∀ x ∈ db.user_roles, u.email = x.email → u.role = x.role

/-- The store-level uniqueness constraints on the two role tables: users.id
and users.email are primary/unique keys, user_roles.email is unique. -/
def dbWellFormed (db : RoleDB) : Prop :=
  db.users.Pairwise (fun a b => a.id ≠ b.id ∧ a.email ≠ b.email) ∧
  db.user_roles.Pairwise (fun a b => a.email ≠ b.email)

/-- C2: a booking request naming a slot id for which no slot is both that id
and available (booked, cancelled, completed, or absent altogether) fails
with SlotUnavailable and leaves every slot unchanged. -/
theorem bookSlot_unavailable_no_mutation (scholarId slotId : Nat)
    (notes provision : Option String) (rand : Nat → Nat) (st : List Slot)
    (h : ∀ s ∈ st, s.id = slotId → s.status ≠ Status.available) :
    bookSlot scholarId slotId notes provision rand st = (BookResult.slotUnavailable, st) := by
  have hnone : bookFetchAvailable slotId st = none := by
    unfold bookFetchAvailable
    refine List.find?_eq_none.mpr ?_
    intro x hx
    simp only [Bool.and_eq_true, decide_eq_true_eq]
    rintro ⟨hid, hav⟩
    exact h x hx hid hav
  unfold bookSlot
  rw [hnone]

/-- Witness for bookSlot_unavailable_no_mutation: booking slot 1 against a
store whose only slot with id 1 is already booked fails SlotUnavailable and
changes nothing. -/
theorem bookSlot_unavailable_no_mutation_witness :
    bookSlot 10 1 none (some "link") (fun _ => 0)
      [{ id := 1, faculty_id := 2, scholar_id := some 9, date := 100, start_time := 540,
         end_time := 600, status := Status.booked, notes := none, meeting_link := some "m" }] =
    (BookResult.slotUnavailable,
      [{ id := 1, faculty_id := 2, scholar_id := some 9, date := 100, start_time := 540,
         end_time := 600, status := Status.booked, notes := none, meeting_link := some "m" }]) :=
  bookSlot_unavailable_no_mutation 10 1 none (some "link") (fun _ => 0) _ (by decide)

/-- C5 counterexample: the owning faculty deleting its own cancelled slot
succeeds, although cancelled is not the available status, so deletion is not
restricted to available slots. -/
theorem deleteSlot_cancelled_succeeds :
    deleteSlot 2 1
      [{ id := 1, faculty_id := 2, scholar_id := none, date := 100, start_time := 540,
         end_time := 600, status := Status.cancelled, notes := none, meeting_link := none }] =
      (DeleteResult.deleted, ([] : List Slot)) ∧
    Status.cancelled ≠ Status.available := by
  decide

/-- C5 (amended): deletion fails NotFound when no slot carries the given id
with the caller as owner, fails Forbidden when the matching slot is booked,
and succeeds (removing the row) for the owner's slot in every non-booked
status, available, cancelled and completed alike. -/
theorem deleteSlot_spec (callerId slotId : Nat) (st : List Slot) :
    ((∀ s ∈ st, ¬(s.id = slotId ∧ s.faculty_id = callerId)) →
      deleteSlot callerId slotId st = (DeleteResult.notFound, st)) ∧
    ∀ s ∈ st, (∀ t ∈ st, t.id = slotId → t = s) → s.id = slotId → s.faculty_id = callerId →
      (s.status = Status.booked → deleteSlot callerId slotId st = (DeleteResult.forbidden, st)) ∧
      (s.status ≠ Status.booked →
        deleteSlot callerId slotId st =
          (DeleteResult.deleted, st.filter (fun t => !decide (t.id = slotId)))) := by
  constructor
  · intro h
    have hnone : st.find? (fun s => decide (s.id = slotId) && decide (s.faculty_id = callerId)) = none := by
      refine List.find?_eq_none.mpr ?_
      intro x hx
      simp only [Bool.and_eq_true, decide_eq_true_eq]
      exact h x hx
    unfold deleteSlot
    rw [hnone]
  · intro s hs huniq hid hfac
    have hfind : st.find? (fun t => decide (t.id = slotId) && decide (t.faculty_id = callerId)) = some s := by
      cases hf : st.find? (fun t => decide (t.id = slotId) && decide (t.faculty_id = callerId)) with
      | none =>
        exfalso
        rw [List.find?_eq_none] at hf
        exact hf s hs (by simp [hid, hfac])
      | some u =>
        have hu1 := List.find?_some hf
        have hu2 := List.mem_of_find?_eq_some hf
        simp only [Bool.and_eq_true, decide_eq_true_eq] at hu1
        rw [huniq u hu2 hu1.1]
    constructor
    · intro hb
      unfold deleteSlot
      rw [hfind]
      simp [hb]
    · intro hb
      unfold deleteSlot
      rw [hfind]
      simp [hb]

/-- Witness for deleteSlot_spec: deleting a concrete completed slot as its
owner succeeds and removes the row. -/
theorem deleteSlot_spec_witness :
    deleteSlot 2 1
      [{ id := 1, faculty_id := 2, scholar_id := some 9, date := 100, start_time := 540,
         end_time := 600, status := Status.completed, notes := none, meeting_link := none }] =
      (DeleteResult.deleted, ([] : List Slot)) := by
  have h := ((deleteSlot_spec 2 1
      [{ id := 1, faculty_id := 2, scholar_id := some 9, date := 100, start_time := 540,
         end_time := 600, status := Status.completed, notes := none, meeting_link := none }]).2
      { id := 1, faculty_id := 2, scholar_id := some 9, date := 100, start_time := 540,
        end_time := 600, status := Status.completed, notes := none, meeting_link := none }
      (by simp) (by decide) rfl rfl).2 (by decide)
  simpa using h

/-- C1: with the durable update conditioned on the slot id alone (not on the
status still being available), the interleaving fetch 1, fetch 2, update 1,
update 2 of two concurrent booking requests for the same available slot lets
BOTH requests succeed, the second overwriting the first occupant — refuting
that exactly one of N concurrent requests succeeds and that this is enforced
by a status-conditioned update. -/
theorem bookRace_both_requests_succeed :
    isBookedPhase raceOut.1.phase = true ∧
    isBookedPhase raceOut.2.1.phase = true ∧
    raceOut.2.2 =
      [{ id := 1, faculty_id := 2, scholar_id := some 20, date := 100, start_time := 540,
         end_time := 600, status := Status.booked, notes := none, meeting_link := some "linkB" }] := by
  decide

/-- Creation never removes a row: every slot of the incoming store is still
in the store createSlot returns. -/
theorem createSlot_mem_mono {fid d sdt edt nid : Nat} {st : List Slot} {A : Slot}
    (hA : A ∈ st) : A ∈ (createSlot fid d sdt edt nid st).2 := by
  unfold createSlot
  split
  · exact hA
  · split
    · exact hA
    · exact List.mem_append_left _ hA

/-- An accepted creation returns exactly the new row. -/
theorem createSlot_created_shape {fid d sdt edt nid : Nat} {st : List Slot} {A : Slot}
    (h : (createSlot fid d sdt edt nid st).1 = CreateResult.created A) :
    A = newSlotRow fid d sdt edt nid := by
  unfold createSlot at h
  split at h
  · exact absurd h (by simp)
  · split at h
    · exact absurd h (by simp)
    · simpa using h.symm

/-- An accepted creation appends its row to the store. -/
theorem createSlot_created_snd {fid d sdt edt nid : Nat} {st : List Slot} {A : Slot}
    (h : (createSlot fid d sdt edt nid st).1 = CreateResult.created A) :
    (createSlot fid d sdt edt nid st).2 = st ++ [A] := by
  unfold createSlot at h ⊢
  split at h
  · exact absurd h (by simp)
  · rename_i h1
    split at h
    · exact absurd h (by simp)
    · rename_i h2
      rw [if_neg h1, if_neg h2]
      have hA : newSlotRow fid d sdt edt nid = A := by simpa using h
      rw [hA]

/-- An accepted creation found no same-faculty same-date row passing the
overlap filter. -/
theorem createSlot_created_no_overlap {fid d sdt edt nid : Nat} {st : List Slot} {A : Slot}
    (h : (createSlot fid d sdt edt nid st).1 = CreateResult.created A) :
    ∀ s ∈ st, ¬(s.faculty_id = fid ∧ s.date = d / 1440 ∧
      overlapCheck s (sdt % 1440) (edt % 1440) = true) := by
  unfold createSlot at h
  split at h
  · exact absurd h (by simp)
  · rename_i hrange
    split at h
    · exact absurd h (by simp)
    · rename_i hlen
      rintro s hs ⟨h1, h2, h3⟩
      apply hlen
      apply List.length_pos_iff_exists_mem.mpr
      refine ⟨s, List.mem_filter.mpr ⟨hs, ?_⟩⟩
      simp [h1, h2, h3]

/-- A time common to the interval of a row the overlap filter rejects and to
the new request's interval contradicts the filter's three conditions. -/
theorem not_overlapCheck_no_common_time {s : Slot} {S E : Nat}
    (h : ¬ overlapCheck s S E = true) (t : Nat) :
    ¬((s.start_time ≤ t ∧ t < s.end_time) ∧ (S ≤ t ∧ t < E)) := by
  rintro ⟨⟨ha1, ha2⟩, hb1, hb2⟩
  simp only [overlapCheck, Bool.or_eq_true, Bool.and_eq_true, decide_eq_true_eq] at h
  omega

/-- A row already in the store with the same faculty and date as an accepted
creation is interval-disjoint from the accepted row. -/
theorem createSlot_created_disjoint {fid d sdt edt nid : Nat} {st : List Slot} {A B : Slot}
    (hA : A ∈ st) (h : (createSlot fid d sdt edt nid st).1 = CreateResult.created B)
    (hfac : A.faculty_id = B.faculty_id) (hdate : A.date = B.date) :
    intervalsDisjoint A B := by
  have hB := createSlot_created_shape h
  have hno := createSlot_created_no_overlap h A hA
  subst hB
  simp only [newSlotRow] at hfac hdate
  rintro ⟨t, hta, htb⟩
  refine not_overlapCheck_no_common_time (S := sdt % 1440) (E := edt % 1440) ?_ t ⟨hta, ?_⟩
  · intro hchk
    exact hno ⟨hfac, hdate, hchk⟩
  · simpa [newSlotRow] using htb

/-- A row present in the store before a sequence of creations is
interval-disjoint from every same-faculty same-date row the sequence
accepts. -/
theorem runCreatesAccepted_disjoint_from (rs : List CreateReq) :
    ∀ (st : List Slot) (A : Slot), A ∈ st →
      ∀ B ∈ runCreatesAccepted rs st, A.faculty_id = B.faculty_id → A.date = B.date →
        intervalsDisjoint A B := by
  induction rs with
  | nil =>
    intro st A _ B hB
    simp [runCreatesAccepted] at hB
  | cons r rs ih =>
    intro st A hA B hB hfac hdate
    have hmono : A ∈ (createSlot r.facultyId r.dateRaw r.startDT r.endDT r.freshId st).2 :=
      createSlot_mem_mono hA
    rcases hcs : (createSlot r.facultyId r.dateRaw r.startDT r.endDT r.freshId st).1 with _ | _ | C
    · simp only [runCreatesAccepted, hcs] at hB
      exact ih _ A hmono B hB hfac hdate
    · simp only [runCreatesAccepted, hcs] at hB
      exact ih _ A hmono B hB hfac hdate
    · simp only [runCreatesAccepted, hcs] at hB
      rcases List.mem_cons.mp hB with hBC | hB2
      · subst hBC
        exact createSlot_created_disjoint hA hcs hfac hdate
      · exact ih _ A hmono B hB2 hfac hdate

/-- C3: over any sequential execution of slot-creation requests from any
starting store, every two accepted slots with the same facultyId and the
same date have disjoint half-open time intervals. -/
theorem createSlots_sequential_accepted_disjoint (reqs : List CreateReq) (st : List Slot) :
    (runCreatesAccepted reqs st).Pairwise
      (fun A B => A.faculty_id = B.faculty_id → A.date = B.date → intervalsDisjoint A B) := by
  induction reqs generalizing st with
  | nil => simp [runCreatesAccepted]
  | cons r rs ih =>
    rcases hcs : (createSlot r.facultyId r.dateRaw r.startDT r.endDT r.freshId st).1 with _ | _ | A
    · simp only [runCreatesAccepted, hcs]
      exact ih _
    · simp only [runCreatesAccepted, hcs]
      exact ih _
    · simp only [runCreatesAccepted, hcs]
      refine List.pairwise_cons.mpr ⟨?_, ih _⟩
      intro B hB hfac hdate
      have hAmem : A ∈ (createSlot r.facultyId r.dateRaw r.startDT r.endDT r.freshId st).2 := by
        rw [createSlot_created_snd hcs]
        exact List.mem_append_right _ (by simp)
      exact runCreatesAccepted_disjoint_from rs _ A hAmem B hB hfac hdate

/-- The overlap query finds a row exactly when some same-faculty same-date
row satisfies the three-way overlap condition: the new start inside the
existing interval, the new end inside it, or the existing interval contained
in the new one. -/
theorem overlapFilter_pos_iff (fid D S E : Nat) (st : List Slot) :
    0 < (st.filter (fun s => decide (s.faculty_id = fid) && decide (s.date = D) &&
          overlapCheck s S E)).length ↔
      ∃ s ∈ st, s.faculty_id = fid ∧ s.date = D ∧
        ((s.start_time ≤ S ∧ S < s.end_time) ∨
         (s.start_time < E ∧ E ≤ s.end_time) ∨
         (S ≤ s.start_time ∧ s.end_time ≤ E)) := by
  rw [List.length_pos_iff_exists_mem]
  constructor
  · rintro ⟨x, hx⟩
    obtain ⟨hxs, hpred⟩ := List.mem_filter.mp hx
    simp only [overlapCheck, Bool.and_eq_true, Bool.or_eq_true, decide_eq_true_eq] at hpred
    obtain ⟨⟨h1, h2⟩, h3⟩ := hpred
    exact ⟨x, hxs, h1, h2, by omega⟩
  · rintro ⟨s, hs, h1, h2, h3⟩
    refine ⟨s, List.mem_filter.mpr ⟨hs, ?_⟩⟩
    simp only [overlapCheck, Bool.and_eq_true, Bool.or_eq_true, decide_eq_true_eq]
    exact ⟨⟨h1, h2⟩, by omega⟩

/-- C4: slot creation fails InvalidRange, the store untouched, whenever the
end datetime is not after the start datetime; otherwise it fails
SlotConflict, the store untouched, exactly when some existing slot of the
same faculty and date — its status unrestricted — meets the three-way
overlap condition; otherwise it appends the new row with status
available. -/
theorem createSlot_validation_spec (facultyId dateRaw startDT endDT freshId : Nat)
    (st : List Slot) :
    (endDT ≤ startDT →
      createSlot facultyId dateRaw startDT endDT freshId st = (CreateResult.invalidRange, st)) ∧
    (startDT < endDT →
      (createSlot facultyId dateRaw startDT endDT freshId st = (CreateResult.slotConflict, st) ↔
        ∃ s ∈ st, s.faculty_id = facultyId ∧ s.date = dateRaw / 1440 ∧
          ((s.start_time ≤ startDT % 1440 ∧ startDT % 1440 < s.end_time) ∨
           (s.start_time < endDT % 1440 ∧ endDT % 1440 ≤ s.end_time) ∨
           (startDT % 1440 ≤ s.start_time ∧ s.end_time ≤ endDT % 1440)))) ∧
    (startDT < endDT →
      (¬ ∃ s ∈ st, s.faculty_id = facultyId ∧ s.date = dateRaw / 1440 ∧
          ((s.start_time ≤ startDT % 1440 ∧ startDT % 1440 < s.end_time) ∨
           (s.start_time < endDT % 1440 ∧ endDT % 1440 ≤ s.end_time) ∨
           (startDT % 1440 ≤ s.start_time ∧ s.end_time ≤ endDT % 1440))) →
      createSlot facultyId dateRaw startDT endDT freshId st =
        (CreateResult.created (newSlotRow facultyId dateRaw startDT endDT freshId),
         st ++ [newSlotRow facultyId dateRaw startDT endDT freshId]) ∧
      (newSlotRow facultyId dateRaw startDT endDT freshId).status = Status.available) := by
  refine ⟨?_, ?_, ?_⟩
  · intro h
    unfold createSlot
    rw [if_pos h]
  · intro hlt
    have hne : ¬ endDT ≤ startDT := by omega
    unfold createSlot
    rw [if_neg hne]
    rw [← overlapFilter_pos_iff facultyId (dateRaw / 1440) (startDT % 1440) (endDT % 1440) st]
    by_cases hq : 0 < (st.filter (fun s =>
        decide (s.faculty_id = facultyId) && decide (s.date = dateRaw / 1440) &&
          overlapCheck s (startDT % 1440) (endDT % 1440))).length
    · rw [if_pos hq]
      simp [hq]
    · rw [if_neg hq]
      simp [hq]
  · intro hlt hnex
    have hne : ¬ endDT ≤ startDT := by omega
    have hq : ¬ 0 < (st.filter (fun s =>
        decide (s.faculty_id = facultyId) && decide (s.date = dateRaw / 1440) &&
          overlapCheck s (startDT % 1440) (endDT % 1440))).length := by
      intro hq
      exact hnex ((overlapFilter_pos_iff _ _ _ _ _).mp hq)
    unfold createSlot
    rw [if_neg hne, if_neg hq]
    exact ⟨rfl, rfl⟩

/-- Witness for createSlot_validation_spec: a creation into the empty store
with a one-hour range is accepted and inserts the available row. -/
theorem createSlot_validation_spec_witness :
    createSlot 1 0 60 120 5 [] =
      (CreateResult.created (newSlotRow 1 0 60 120 5), [newSlotRow 1 0 60 120 5]) :=
  (((createSlot_validation_spec 1 0 60 120 5 []).2.2 (by omega) (by simp)).1)

/-- Every row of the upsert result that carries the upserted email carries
the upserted role. -/
theorem upsertRole_role_of_email {email : String} {r : Role} {rows : List RoleRow}
    {x : RoleRow} (hx : x ∈ upsertRole email r rows) (he : x.email = email) :
    x.role = r := by
  unfold upsertRole at hx
  split at hx
  · obtain ⟨y, hy, hxy⟩ := List.mem_map.mp hx
    by_cases hye : y.email = email
    · rw [if_pos hye] at hxy
      rw [← hxy]
    · rw [if_neg hye] at hxy
      exact absurd (hxy ▸ he) hye
  · rename_i hany
    rcases List.mem_append.mp hx with h1 | h2
    · exfalso
      simp only [List.any_eq_true, decide_eq_true_eq, not_exists] at hany
      exact hany x ⟨h1, he⟩
    · rw [List.mem_cons] at h2
      rcases h2 with h2 | h2
      · rw [h2]
      · simp at h2

/-- A row of the upsert result with a different email was already in the
table, unchanged. -/
theorem upsertRole_mem_of_ne {email : String} {r : Role} {rows : List RoleRow}
    {x : RoleRow} (hx : x ∈ upsertRole email r rows) (he : x.email ≠ email) :
    x ∈ rows := by
  unfold upsertRole at hx
  split at hx
  · obtain ⟨y, hy, hxy⟩ := List.mem_map.mp hx
    by_cases hye : y.email = email
    · rw [if_pos hye] at hxy
      exact absurd (hxy ▸ rfl : x.email = y.email) (by rw [hye]; exact he)
    · rw [if_neg hye] at hxy
      rw [← hxy]
      exact hy
  · rcases List.mem_append.mp hx with h1 | h2
    · exact h1
    · rw [List.mem_cons] at h2
      rcases h2 with h2 | h2
      · exact absurd (by rw [h2]) he
      · simp at h2

/-- The upsert result always holds a row with the upserted email and role. -/
theorem upsertRole_exists_email (email : String) (r : Role) (rows : List RoleRow) :
    ∃ x ∈ upsertRole email r rows, x.email = email ∧ x.role = r := by
  unfold upsertRole
  split
  · rename_i hany
    obtain ⟨y, hy, hye⟩ := List.any_eq_true.mp hany
    rw [decide_eq_true_eq] at hye
    refine ⟨{ y with role := r }, List.mem_map.mpr ⟨y, hy, by rw [if_pos hye]⟩, hye, rfl⟩
  · exact ⟨{ email := email, role := r }, List.mem_append_right _ (by simp), rfl, rfl⟩

/-- Round trip between the role strings and the parsed roles. -/
theorem roleOfString_stringOfRole (r : Role) : roleOfString (stringOfRole r) = some r := by
  cases r <;> rfl

/-- No role renders to the empty string. -/
theorem stringOfRole_ne_empty (r : Role) : stringOfRole r ≠ "" := by
  cases r <;> decide

/-- C6: for a caller of any role, a role mutation targeting the caller's own
user id (mutate-role by id) or the caller's own email (set-role by email)
fails Forbidden — through the admin gate for non-admins and through the
self-change guard for admins — and leaves both role stores unchanged. -/
theorem roleMutation_self_forbidden (caller : User) (roleStr : String) (r : Role)
    (db : RoleDB) (hr : roleOfString roleStr = some r) (he : caller.email ≠ "") :
    patchUserRole caller caller.id roleStr db = (RoleMutResult.forbidden, db) ∧
    setRoleByEmail caller caller.email roleStr db = (RoleMutResult.forbidden, db) := by
  have hrs : roleStr ≠ "" := by
    intro h0
    rw [h0] at hr
    simp [roleOfString] at hr
  by_cases hadm : caller.role = Role.admin
  · constructor
    · simp [patchUserRole, hadm, hr]
    · simp [setRoleByEmail, hadm, he, hrs, hr]
  · constructor
    · simp [patchUserRole, hadm]
    · simp [setRoleByEmail, hadm]

/-- Witness for roleMutation_self_forbidden: a concrete admin targeting its
own id and its own email is refused both ways, the stores untouched. -/
theorem roleMutation_self_forbidden_witness :
    patchUserRole
      { id := 1, email := "admin@x.com", name := "A", picture := "", google_id := "g",
        role := Role.admin } 1 "faculty" { users := [], user_roles := [] } =
      (RoleMutResult.forbidden, { users := [], user_roles := [] }) ∧
    setRoleByEmail
      { id := 1, email := "admin@x.com", name := "A", picture := "", google_id := "g",
        role := Role.admin } "admin@x.com" "faculty" { users := [], user_roles := [] } =
      (RoleMutResult.forbidden, { users := [], user_roles := [] }) :=
  roleMutation_self_forbidden
    { id := 1, email := "admin@x.com", name := "A", picture := "", google_id := "g",
      role := Role.admin } "faculty" Role.faculty { users := [], user_roles := [] }
    rfl (by decide)

/-- C7: pre-assigning a role r to an email with no users row and then
authenticating that email creates an Identity carrying r (not the scholar
default); and a first authentication with no role assignment at all creates
a persisted default-scholar user_roles row and an Identity with role
scholar. -/
theorem roleAssignment_roundTrip (caller : User) (email : String) (r : Role)
    (p : AuthPayload) (freshId : Nat) (db : RoleDB) :
    (caller.role = Role.admin → email ≠ "" → email ≠ caller.email →
      (∀ u ∈ db.users, u.email ≠ email) → p.email = email →
      ((googleAuth p freshId (setRoleByEmail caller email (stringOfRole r) db).2).1.role = r ∧
       (googleAuth p freshId (setRoleByEmail caller email (stringOfRole r) db).2).1.id = freshId ∧
       (googleAuth p freshId (setRoleByEmail caller email (stringOfRole r) db).2).1.email = email)) ∧
    ((∀ x ∈ db.user_roles, x.email ≠ p.email) → (∀ u ∈ db.users, u.email ≠ p.email) →
      ((googleAuth p freshId db).1.role = Role.scholar ∧
       (googleAuth p freshId db).1.id = freshId ∧
       ∃ x ∈ (googleAuth p freshId db).2.user_roles,
         x.email = p.email ∧ x.role = Role.scholar)) := by
  constructor
  · intro hadm h0 hne hnou hpe
    subst hpe
    have hany : db.users.any (fun u => decide (u.email = p.email)) = false := by
      rw [List.any_eq_false]
      intro u hu
      simp only [decide_eq_true_eq]
      exact hnou u hu
    have hsnd : (setRoleByEmail caller p.email (stringOfRole r) db).2 =
        { users := db.users, user_roles := upsertRole p.email r db.user_roles } := by
      simp [setRoleByEmail, hadm, h0, stringOfRole_ne_empty r, roleOfString_stringOfRole,
            hne, hany]
    rw [hsnd]
    have hsome : ((upsertRole p.email r db.user_roles).find?
        (fun x => decide (x.email = p.email))).isSome = true := by
      rw [List.find?_isSome]
      obtain ⟨x, hx, hxe, _⟩ := upsertRole_exists_email p.email r db.user_roles
      exact ⟨x, hx, by simp [hxe]⟩
    cases hfind : (upsertRole p.email r db.user_roles).find?
        (fun x => decide (x.email = p.email)) with
    | none =>
      rw [hfind] at hsome
      simp at hsome
    | some y =>
      have hymem := List.mem_of_find?_eq_some hfind
      have hye : y.email = p.email := by simpa using List.find?_some hfind
      have hyr : y.role = r := upsertRole_role_of_email hymem hye
      have hfu : db.users.find? (fun u => decide (u.email = p.email)) = none := by
        rw [List.find?_eq_none]
        intro u hu
        simp only [decide_eq_true_eq]
        exact hnou u hu
      simp [googleAuth, hfind, hfu, hyr]
  · intro hnorole hnou
    have hfr : db.user_roles.find? (fun x => decide (x.email = p.email)) = none := by
      rw [List.find?_eq_none]
      intro x hx
      simp only [decide_eq_true_eq]
      exact hnorole x hx
    have hfu : db.users.find? (fun u => decide (u.email = p.email)) = none := by
      rw [List.find?_eq_none]
      intro u hu
      simp only [decide_eq_true_eq]
      exact hnou u hu
    refine ⟨by simp [googleAuth, hfr, hfu], by simp [googleAuth, hfr, hfu], ?_⟩
    refine ⟨{ email := p.email, role := Role.scholar }, ?_, rfl, rfl⟩
    simp [googleAuth, hfr, hfu]

/-- Witness for roleAssignment_roundTrip: faculty pre-assigned to a fresh
email yields a faculty Identity on first login. -/
theorem roleAssignment_roundTrip_witness :
    (googleAuth { email := "new@x.com", name := "N", picture := "", googleId := "g" } 5
      (setRoleByEmail
        { id := 1, email := "admin@x.com", name := "A", picture := "", google_id := "g",
          role := Role.admin }
        "new@x.com" (stringOfRole Role.faculty) { users := [], user_roles := [] }).2).1.role =
      Role.faculty :=
  ((roleAssignment_roundTrip
      { id := 1, email := "admin@x.com", name := "A", picture := "", google_id := "g",
        role := Role.admin }
      "new@x.com" Role.faculty
      { email := "new@x.com", name := "N", picture := "", googleId := "g" } 5
      { users := [], user_roles := [] }).1
    rfl (by decide) (by decide) (by simp) rfl).1

/-- C9: both role-mutation endpoints preserve the role-sync invariant: when
the store satisfies the key constraints and every users row agrees with the
user_roles row of its email, that agreement still holds after the mutation,
because the users-table role is rewritten in the same operation as the
user_roles upsert. -/
theorem roleMutation_preserves_roleSync (caller : User) (userId : Nat)
    (roleStr email : String) (db : RoleDB)
    (hwf : dbWellFormed db) (hsync : roleSync db) :
    roleSync (patchUserRole caller userId roleStr db).2 ∧
    roleSync (setRoleByEmail caller email roleStr db).2 := by
  have hsymm : Symmetric (fun a b : User => a.id ≠ b.id ∧ a.email ≠ b.email) :=
    fun _ _ h => ⟨h.1.symm, h.2.symm⟩
  constructor
  · unfold patchUserRole
    split
    · exact hsync
    · split
      · exact hsync
      · rename_i r hr
        split
        · exact hsync
        · split
          · exact hsync
          · rename_i target htarget
            have htmem := List.mem_of_find?_eq_some htarget
            have htid : target.id = userId := by simpa using List.find?_some htarget
            intro u1 hu1 x1 hx1 hex
            obtain ⟨u, hu, hfu⟩ := List.mem_map.mp hu1
            by_cases hid : u.id = userId
            · have hut : u = target := by
                by_contra hne2
                exact (hwf.1.forall hsymm hu htmem hne2).1 (by rw [hid, htid])
              rw [if_pos hid] at hfu
              have hx1e : x1.email = target.email := by
                rw [← hex, ← hfu, hut]
              have hx1r := upsertRole_role_of_email hx1 hx1e
              rw [← hfu, hx1r]
            · rw [if_neg hid] at hfu
              by_cases hxe : x1.email = target.email
              · exfalso
                have hunt : u ≠ target := by
                  intro hh
                  exact hid (by rw [hh, htid])
                have hue : u.email = target.email := by
                  rw [hfu]
                  exact hex.trans hxe
                exact (hwf.1.forall hsymm hu htmem hunt).2 hue
              · have hx0 := upsertRole_mem_of_ne hx1 hxe
                have h1 : u.email = x1.email := by
                  rw [hfu]
                  exact hex
                have h2 := hsync u hu x1 hx0 h1
                rw [← hfu]
                exact h2
  · unfold setRoleByEmail
    split
    · exact hsync
    · split
      · exact hsync
      · split
        · exact hsync
        · rename_i r2 hr2
          split
          · exact hsync
          · intro u1 hu1 x1 hx1 hex
            by_cases hany : db.users.any (fun u => decide (u.email = email)) = true
            · rw [if_pos hany] at hu1
              obtain ⟨u, hu, hfu⟩ := List.mem_map.mp hu1
              by_cases hue : u.email = email
              · rw [if_pos hue] at hfu
                have hx1e : x1.email = email := by
                  rw [← hex, ← hfu]
                  exact hue
                have hx1r := upsertRole_role_of_email hx1 hx1e
                rw [← hfu, hx1r]
              · rw [if_neg hue] at hfu
                have hx1e : x1.email = u.email := by
                  rw [← hex, ← hfu]
                have hx0 := upsertRole_mem_of_ne hx1 (by rw [hx1e]; exact hue)
                have h2 := hsync u hu x1 hx0 hx1e.symm
                rw [← hfu]
                exact h2
            · rw [if_neg hany] at hu1
              by_cases hxe : x1.email = email
              · exfalso
                rw [Bool.not_eq_true, List.any_eq_false] at hany
                have := hany u1 hu1
                simp only [decide_eq_true_eq] at this
                exact this (hex.trans hxe)
              · have hx0 := upsertRole_mem_of_ne hx1 hxe
                exact hsync u1 hu1 x1 hx0 hex

/-- Witness for roleMutation_preserves_roleSync: a concrete two-table store
with one scholar stays in sync through both endpoints. -/
theorem roleMutation_preserves_roleSync_witness :
    roleSync (patchUserRole
      { id := 1, email := "admin@x.com", name := "A", picture := "", google_id := "g",
        role := Role.admin } 2 "faculty"
      { users := [{ id := 2, email := "u@x.com", name := "U", picture := "", google_id := "h",
                    role := Role.scholar }],
        user_roles := [{ email := "u@x.com", role := Role.scholar }] }).2 ∧
    roleSync (setRoleByEmail
      { id := 1, email := "admin@x.com", name := "A", picture := "", google_id := "g",
        role := Role.admin } "u@x.com" "faculty"
      { users := [{ id := 2, email := "u@x.com", name := "U", picture := "", google_id := "h",
                    role := Role.scholar }],
        user_roles := [{ email := "u@x.com", role := Role.scholar }] }).2 :=
  roleMutation_preserves_roleSync
    { id := 1, email := "admin@x.com", name := "A", picture := "", google_id := "g",
      role := Role.admin } 2 "faculty" "u@x.com"
    { users := [{ id := 2, email := "u@x.com", name := "U", picture := "", google_id := "h",
                  role := Role.scholar }],
      user_roles := [{ email := "u@x.com", role := Role.scholar }] }
    (by constructor <;> simp) (by intro u hu x hx he; simp_all)

/-- Every character of the fallback alphabet is a lowercase letter. -/
theorem lowercaseChars_sound : ∀ c ∈ lowercaseChars, 'a' ≤ c ∧ c ≤ 'z' := by
  decide

/-- A fallback segment has the requested length. -/
theorem fallbackSegment_length (rand : Nat → Nat) (base len : Nat) :
    (fallbackSegment rand base len).length = len := by
  simp [fallbackSegment]

/-- Every character of a fallback segment is a lowercase letter. -/
theorem fallbackSegment_lower (rand : Nat → Nat) (base len : Nat) :
    ∀ c ∈ fallbackSegment rand base len, 'a' ≤ c ∧ c ≤ 'z' := by
  intro c hc
  simp only [fallbackSegment, List.mem_map, List.mem_range] at hc
  obtain ⟨j, _, rfl⟩ := hc
  have hlt : rand (base + j) % 26 < lowercaseChars.length := by
    have h26 : rand (base + j) % 26 < 26 := Nat.mod_lt _ (by norm_num)
    simpa [lowercaseChars] using h26
  rw [List.getD_eq_getElem _ _ hlt]
  exact lowercaseChars_sound _ (List.getElem_mem hlt)

/-- The locally generated link always has the prescribed 3-4-3
lowercase-letter shape. -/
theorem generateFallbackMeetLink_form (rand : Nat → Nat) :
    isFallbackLinkForm (generateFallbackMeetLink rand) :=
  ⟨fallbackSegment rand 0 3, fallbackSegment rand 3 4, fallbackSegment rand 7 3,
   fallbackSegment_length rand 0 3, fallbackSegment_length rand 3 4,
   fallbackSegment_length rand 7 3,
   fallbackSegment_lower rand 0 3, fallbackSegment_lower rand 3 4,
   fallbackSegment_lower rand 7 3, rfl⟩

/-- C8: when the external meeting-provisioning call fails, booking an
available slot still succeeds; the stored and returned meeting link is the
locally generated fallback, and that link is exactly the fixed prefix
followed by three hyphen-separated lowercase segments of lengths 3, 4
and 3. -/
theorem bookSlot_fallback_on_provision_failure (scholarId slotId : Nat)
    (notes : Option String) (rand : Nat → Nat) (st : List Slot) (s : Slot)
    (hmem : s ∈ st) (hid : s.id = slotId) (hav : s.status = Status.available)
    (huniq : ∀ t ∈ st, t.id = slotId → t = s) :
    bookSlot scholarId slotId notes none rand st =
      (BookResult.booked (bookMutation scholarId notes (generateFallbackMeetLink rand) s)
         (generateFallbackMeetLink rand),
       bookApplyUpdate scholarId slotId notes (generateFallbackMeetLink rand) st) ∧
    (bookMutation scholarId notes (generateFallbackMeetLink rand) s).meeting_link =
      some (generateFallbackMeetLink rand) ∧
    isFallbackLinkForm (generateFallbackMeetLink rand) := by
  refine ⟨?_, rfl, generateFallbackMeetLink_form rand⟩
  have hf : bookFetchAvailable slotId st = some s := by
    unfold bookFetchAvailable
    cases hq : st.find? (fun t => decide (t.id = slotId) && decide (t.status = Status.available)) with
    | none =>
      exfalso
      rw [List.find?_eq_none] at hq
      exact hq s hmem (by simp [hid, hav])
    | some u =>
      have h1 := List.find?_some hq
      have h2 := List.mem_of_find?_eq_some hq
      simp only [Bool.and_eq_true, decide_eq_true_eq] at h1
      rw [huniq u h2 h1.1]
  have hrf : bookRefetch slotId (bookApplyUpdate scholarId slotId notes
      (generateFallbackMeetLink rand) st) =
      some (bookMutation scholarId notes (generateFallbackMeetLink rand) s) := by
    unfold bookRefetch
    cases hq : (bookApplyUpdate scholarId slotId notes
        (generateFallbackMeetLink rand) st).find? (fun t => decide (t.id = slotId)) with
    | none =>
      exfalso
      rw [List.find?_eq_none] at hq
      refine hq (bookMutation scholarId notes (generateFallbackMeetLink rand) s) ?_ ?_
      · unfold bookApplyUpdate
        refine List.mem_map.mpr ⟨s, hmem, ?_⟩
        rw [if_pos hid]
      · simp [bookMutation, hid]
    | some u =>
      have h1 := List.find?_some hq
      have h2 := List.mem_of_find?_eq_some hq
      simp only [decide_eq_true_eq] at h1
      unfold bookApplyUpdate at h2
      obtain ⟨t, ht, hft⟩ := List.mem_map.mp h2
      by_cases htid : t.id = slotId
      · rw [if_pos htid] at hft
        rw [huniq t ht htid] at hft
        rw [← hft]
      · exfalso
        rw [if_neg htid] at hft
        apply htid
        rw [hft]
        exact h1
  simp only [bookSlot, hf, createRealGoogleMeet, hrf]

/-- Witness for bookSlot_fallback_on_provision_failure: a concrete booking
whose provisioning call fails succeeds with the fallback link. -/
theorem bookSlot_fallback_on_provision_failure_witness :
    bookSlot 10 1 none none (fun n => n)
      [{ id := 1, faculty_id := 2, scholar_id := none, date := 100, start_time := 540,
         end_time := 600, status := Status.available, notes := none, meeting_link := none }] =
      (BookResult.booked
        (bookMutation 10 none (generateFallbackMeetLink (fun n => n))
          { id := 1, faculty_id := 2, scholar_id := none, date := 100, start_time := 540,
            end_time := 600, status := Status.available, notes := none, meeting_link := none })
        (generateFallbackMeetLink (fun n => n)),
       bookApplyUpdate 10 1 none (generateFallbackMeetLink (fun n => n))
        [{ id := 1, faculty_id := 2, scholar_id := none, date := 100, start_time := 540,
           end_time := 600, status := Status.available, notes := none, meeting_link := none }]) ∧
    (bookMutation 10 none (generateFallbackMeetLink (fun n => n))
      { id := 1, faculty_id := 2, scholar_id := none, date := 100, start_time := 540,
        end_time := 600, status := Status.available, notes := none, meeting_link := none }).meeting_link =
      some (generateFallbackMeetLink (fun n => n)) ∧
    isFallbackLinkForm (generateFallbackMeetLink (fun n => n)) :=
  bookSlot_fallback_on_provision_failure 10 1 none (fun n => n)
    [{ id := 1, faculty_id := 2, scholar_id := none, date := 100, start_time := 540,
       end_time := 600, status := Status.available, notes := none, meeting_link := none }]
    { id := 1, faculty_id := 2, scholar_id := none, date := 100, start_time := 540,
      end_time := 600, status := Status.available, notes := none, meeting_link := none }
    (by simp) rfl rfl (by decide)

/-- The query ordering is transitive. -/
theorem slotLe_trans : ∀ a b c : Slot,
    slotLe a b = true → slotLe b c = true → slotLe a c = true := by
  intro a b c hab hbc
  simp only [slotLe, Bool.or_eq_true, Bool.and_eq_true, decide_eq_true_eq] at hab hbc ⊢
  omega

/-- The query ordering is total. -/
theorem slotLe_total : ∀ a b : Slot, (slotLe a b || slotLe b a) = true := by
  intro a b
  simp only [slotLe, Bool.or_eq_true, Bool.and_eq_true, decide_eq_true_eq]
  omega

/-- C10: the list-available query returns exactly the store's slots that are
available and dated today or later, narrowed by the optional faculty and
date filters, and its result is ordered by date then start time (and is a
permutation of the filtered store, so no row is duplicated or dropped). -/
theorem listAvailable_spec (facultyF dateF : Option Nat) (today : Nat) (st : List Slot) :
    (∀ s : Slot, s ∈ listAvailable facultyF dateF today st ↔
      s ∈ st ∧ s.status = Status.available ∧ today ≤ s.date ∧
      (∀ f, facultyF = some f → s.faculty_id = f) ∧
      (∀ d, dateF = some d → s.date = d)) ∧
    (listAvailable facultyF dateF today st).Pairwise
      (fun a b => a.date < b.date ∨ (a.date = b.date ∧ a.start_time ≤ b.start_time)) ∧
    (listAvailable facultyF dateF today st).Perm
      (st.filter (availFilter facultyF dateF today)) := by
  refine ⟨?_, ?_, List.mergeSort_perm _ _⟩
  · intro s
    unfold listAvailable
    rw [(List.mergeSort_perm (st.filter (availFilter facultyF dateF today)) slotLe).mem_iff,
        List.mem_filter]
    cases facultyF <;> cases dateF <;> simp [availFilter, and_assoc]
  · unfold listAvailable
    refine (List.sorted_mergeSort slotLe_trans slotLe_total
      (st.filter (availFilter facultyF dateF today))).imp ?_
    intro a b hab
    simpa only [slotLe, Bool.or_eq_true, Bool.and_eq_true, decide_eq_true_eq] using hab

end Scheduler
